import Mathlib

set_option autoImplicit false

/-!
Verification development for the chorde cache-coherence library.

The definitions below are a shallow embedding of the Python sources:
  - lib/chorde/clients/inproc.py  (InprocCacheClient, the TTL store)
  - lib/chorde/clients/base.py    (BaseCacheClient.get, NamespaceWrapper,
                                   NamespaceMirrorWrapper)
  - lib/chorde/clients/coherent.py (CoherentDefer.undefer)
  - lib/chorde/mq/coherence.py    (CoherenceManager: query_pending,
                                   mark_done, fire_deletion, waiters)
  - sPickle.py                    (SecurePickler / SecureUnpickler framing)

Machine / environment conventions:
  - wall-clock times and ttls are integers (`Int`); Python floats
    carry no rounding behaviour relevant to any statement proved here,
    every property is about comparisons and additions of times;
  - Python dicts are modelled as association lists with `assocFind` /
    `assocSet` / `assocErase` (last write wins, lookup by key equality);
  - Python exceptions are modelled with `Except`: `CacheMissError`,
    `KeyError`, `AttributeError`, `TypeError`, `NotImplementedError`,
    the sPickle errors;
  - callables such as `expired()` that are polled by the code are fed in
    as explicit oracle inputs (one boolean per poll site).
-/

namespace Chorde

/-- Keys of the in-process store (opaque in the source, `Nat` here). -/
abbrev K := Nat

/-- Stored values (opaque in the source, `Nat` here). -/
abbrev V := Nat

/-- Python dict lookup: first binding of the key, if any.
Wall-clock times and ttls below are plain `Int`. -/
def assocFind {α β : Type} [DecidableEq α] : List (α × β) → α → Option β
  | [], _ => none
  | e :: t, k => if e.1 = k then some e.2 else assocFind t k

/-- Removal of every binding of a key (supports dict update / pop). -/
def assocErase {α β : Type} [DecidableEq α] : List (α × β) → α → List (α × β)
  | [], _ => []
  | e :: t, k => if e.1 = k then assocErase t k else e :: assocErase t k

/-- Decidable equality on Except results, so closed statements about the
embedded operations can be settled by evaluation. -/
instance {ε α : Type} [DecidableEq ε] [DecidableEq α] : DecidableEq (Except ε α) :=
  fun a b =>
    match a, b with
    | .ok x, .ok y =>
      if h : x = y then .isTrue (by rw [h])
      else .isFalse fun hh => Except.noConfusion hh fun hxy => h hxy
    | .error x, .error y =>
      if h : x = y then .isTrue (by rw [h])
      else .isFalse fun hh => Except.noConfusion hh fun hxy => h hxy
    | .ok _, .error _ => .isFalse fun hh => Except.noConfusion hh
    | .error _, .ok _ => .isFalse fun hh => Except.noConfusion hh

/-- Python dict assignment `d[k] = v`. -/
def assocSet {α β : Type} [DecidableEq α] (l : List (α × β)) (k : α) (v : β) : List (α × β) :=
  (k, v) :: assocErase l k

/-- The TTL store: key to (value, absolute expiry time). Capacity and LRU
eviction belong to the external LRUCache container and are out of scope. -/
abbrev StoreOf (κ : Type) := List (κ × (V × Int))

/-- Miss error raised by lookups (CacheMissError in the source). -/
inductive CacheError where
  | cacheMiss
deriving DecidableEq, Repr

section StoreOps

variable {κ : Type} [DecidableEq κ]

/-- InprocCacheClient.put: store `(value, now + ttl)` unconditionally. -/
def put (s : StoreOf κ) (k : κ) (v : V) (ttl : Int) (now : Int) : StoreOf κ :=
  assocSet s k (v, now + ttl)

/-- InprocCacheClient.add: `setdefault` the new entry; when an entry already
existed, replace it only if its expiry is in the past. Returns the new store
and the boolean result. -/
def add (s : StoreOf κ) (k : κ) (v : V) (ttl : Int) (now : Int) : StoreOf κ × Bool :=
  match assocFind s k with
  | none => (assocSet s k (v, now + ttl), true)
  | some cur =>
    if cur.2 < now then (assocSet s k (v, now + ttl), true)
    else (s, false)

/-- InprocCacheClient.getTtl: present entries (stale or not) yield
`(value, expiry - now)`; an absent key raises the miss unless a default was
supplied, in which case `(default, -1)` is returned. -/
def getTtl (s : StoreOf κ) (k : κ) (default : Option V) (now : Int) :
    Except CacheError (V × Int) :=
  match assocFind s k with
  | some (v, expiry) => .ok (v, expiry - now)
  | none =>
    match default with
    | none => .error .cacheMiss
    | some d => .ok (d, -1)

/-- BaseCacheClient.get: delegate to getTtl (propagating its miss), then
raise the miss when the returned ttl is negative and no default was given. -/
def get (s : StoreOf κ) (k : κ) (default : Option V) (now : Int) :
    Except CacheError V :=
  match getTtl s k default now with
  | .error e => .error e
  | .ok (rv, ttl) =>
    if ttl < 0 ∧ default = none then .error .cacheMiss else .ok rv

end StoreOps

/-! Namespace wrapper (lib/chorde/clients/base.py, NamespaceWrapper).
External keys `k` are decorated to the internal key
`(namespace, revision, k)`; the revision marker lives under the distinct
key shape `(namespace, REVMARK)`. -/

/-- Internal keys of the shared store under a namespace wrapper. -/
inductive NSKey where
  | revmark (ns : Nat)
  | data (ns : Nat) (rev : Nat) (k : K)
deriving DecidableEq, Repr

/-- Store shared by all namespace wrappers. -/
abbrev NSStore := StoreOf NSKey

/-- Modelled from the spec: the underlying shared client consumed by
NamespaceWrapper is not under src/ beyond the abstract BaseCacheClient;
per the spec its `clear()` "may actually be a no-op; the revision bump is
the real logical clear", which is the case exercised by the spec scenario.
So the shared clear leaves the store untouched. -/
def sharedClear (s : NSStore) : NSStore := s

/-- Observable actions NamespaceWrapper.clear performs, in order. -/
inductive NSEvent where
  | revInc (newRev : Nat)
  | clientPut (k : NSKey) (v : V) (ttl : Int)
  | clientClear
deriving DecidableEq, Repr

/-- NamespaceWrapper state: its namespace name and in-memory revision. -/
structure NSWrapper where
  nspace : Nat
  revision : Nat
deriving DecidableEq, Repr

/-- NamespaceWrapper.__init__: revision is read from the shared store under
the REVMARK key, defaulting to 0. -/
def mkNSWrapper (ns : Nat) (s : NSStore) (now : Int) : NSWrapper :=
  { nspace := ns,
    revision :=
      match get s (NSKey.revmark ns) (some 0) now with
      | .ok r => r
      | .error _ => 0 }

/-- NamespaceWrapper._key_decorator: `(namespace, revision, key)`. -/
def keyDecorator (w : NSWrapper) (k : K) : NSKey :=
  NSKey.data w.nspace w.revision k

/-- DecoratedWrapper.put through the namespace wrapper. -/
def wrapPut (w : NSWrapper) (s : NSStore) (k : K) (v : V) (ttl : Int) (now : Int) :
    NSStore :=
  put s (keyDecorator w k) v ttl now

/-- DecoratedWrapper.getTtl / BaseCacheClient.get through the wrapper. -/
def wrapGet (w : NSWrapper) (s : NSStore) (k : K) (default : Option V) (now : Int) :
    Except CacheError V :=
  get s (keyDecorator w k) default now

/-- NamespaceWrapper.clear: bump the revision, write it under REVMARK with
ttl 3600 through the underlying client, then call the underlying clear.
The event list records the actions in source order. -/
def wrapClear (w : NSWrapper) (s : NSStore) (now : Int) :
    NSWrapper × NSStore × List NSEvent :=
  let w1 : NSWrapper := { w with revision := w.revision + 1 }
  let s1 := put s (NSKey.revmark w.nspace) w1.revision 3600 now
  let s2 := sharedClear s1
  (w1, s2,
    [NSEvent.revInc w1.revision,
     NSEvent.clientPut (NSKey.revmark w.nspace) w1.revision 3600,
     NSEvent.clientClear])

/-! Namespace mirror wrapper (base.py, NamespaceMirrorWrapper). -/

/-- Python-level errors that the embedded code can raise. -/
inductive PyError where
  | attributeError
  | typeError
  | keyError
  | notImplementedError
deriving DecidableEq, Repr

/-- The reference wrapper a mirror reads from (a NamespaceWrapper). -/
structure RefWrapper where
  nspace : Nat
  revision : Nat
deriving DecidableEq, Repr

/-- NamespaceMirrorWrapper: holds only the reference (its __init__ skips
NamespaceWrapper.__init__, so no own namespace/revision attributes). -/
structure MirrorWrapper where
  reference : RefWrapper
deriving DecidableEq, Repr

/-- The mirror's revision property getter: the reference's revision. -/
def mirrorRevision (m : MirrorWrapper) : Nat :=
  m.reference.revision

/-- The mirror's namespace property getter: the reference's namespace. -/
def mirrorNamespace (m : MirrorWrapper) : Nat :=
  m.reference.nspace

/-- The mirror's revision property setter: its body is `pass`, so the
assignment is dropped and both wrappers are unchanged. -/
def setMirrorRevision (m : MirrorWrapper) (_v : Nat) : Except PyError MirrorWrapper :=
  .ok m

/-- The mirror's namespace property setter is declared as
`def namespace(self)` with no value parameter; the property protocol calls
it as `fset(self, value)`, so every assignment raises TypeError before the
body runs. -/
def setMirrorNamespace (_m : MirrorWrapper) (_v : Nat) : Except PyError MirrorWrapper :=
  .error .typeError

/-! Coherence manager (lib/chorde/mq/coherence.py).
The bus itself (zmq ipsub) is external; what is embedded is the manager's
local state and the messages it emits. -/

/-- Contact list of a node (its p2p publishing endpoints). -/
abbrev Contact := List Nat

/-- Messages the manager publishes on the bus, with their payloads. -/
inductive BusEvent where
  | publishDel (txid : Nat) (key : K)
  | publishDone (txid : Nat) (keys : List K) (contact : Contact)
deriving DecidableEq, Repr

/-- Local state of a CoherenceManager. `pending` maps keys to the txid of
my own in-flight computation (Python stores integers there, but the code
guards `if txid is not None`, so the value type keeps the option);
`groupPending` is the broker-side table key -> (txid, contact). -/
structure CMgr where
  synchronous : Bool
  txidCounter : Nat
  pending : List (K × Option Nat)
  groupPending : List (K × (Nat × Contact))
  p2pPubBinds : Contact
deriving DecidableEq, Repr

/-- CoherenceManager.txid: `itertools.cycle(xrange(0x7FFFFFFF)).next()`,
a 31-bit cycling counter. The state stores the number of draws so far;
the value drawn is that count modulo 0x7FFFFFFF. -/
def nextTxid (s : CMgr) : Nat × CMgr :=
  (s.txidCounter % 0x7FFFFFFF, { s with txidCounter := s.txidCounter + 1 })

/-- Replies of query_pending: a computing node's contact, the null reply
(nobody computing / lock acquired), or the OOB_UPDATE sentinel. -/
inductive QPReply where
  | noneReply
  | oobUpdate
  | contact (c : Contact)
deriving DecidableEq, Repr

/-- CoherenceManager._query_pending_locally. The `expired` callable is
polled at most once on this path, so it is passed as a boolean. The
trailing `return rv` of the source is unreachable (every branch above
returns) and is not represented.

The pending probe is `rv = self.pending.get(key)` followed by
`if rv is not None`: dict.get yields None both for an absent key and for
a stored None, so only an entry holding an actual txid is a hit, and a
None-valued entry falls through to the expired branch; `.getD none`
mirrors that collapse. -/
def queryPendingLocally (s : CMgr) (key : K) (expired : Bool)
    (optimisticLock : Bool) : QPReply × CMgr :=
  match assocFind s.groupPending key with
  | some rv => (.contact rv.2, s)
  | none =>
    match (assocFind s.pending key).getD none with
    | some _ => (.contact s.p2pPubBinds, s)
    | none =>
      if expired then
        if optimisticLock then
          let (txid, s1) := nextTxid s
          (.noneReply,
            { s1 with
              groupPending := assocSet s1.groupPending key (txid, s.p2pPubBinds),
              pending := assocSet s1.pending key (some txid) })
        else (.noneReply, s)
      else (.oobUpdate, s)

/-- CoherenceManager.query_pending: when the local node is the broker it
delegates to _query_pending_locally; the listener branch talks to the bus
through zmq sockets and is abstracted as the oracle `listenerPath`. -/
def queryPending (isBroker : Bool) (listenerPath : QPReply × CMgr) (s : CMgr)
    (key : K) (expired : Bool) (optimisticLock : Bool) : QPReply × CMgr :=
  if isBroker then queryPendingLocally s key expired optimisticLock
  else listenerPath

/-- CoherenceManager.mark_done: `self.pending.pop(key)` with no default
(KeyError on an absent key; only zmq connection errors are swallowed by
the decorator, so the KeyError propagates and nothing is published);
on success, publish `(txid, [key], contact)` on the done channel when the
popped txid is not None. -/
def markDone (s : CMgr) (key : K) : Except PyError (CMgr × List BusEvent) :=
  match assocFind s.pending key with
  | none => .error .keyError
  | some txid =>
    let s1 := { s with pending := assocErase s.pending key }
    match txid with
    | none => .ok (s1, [])
    | some t => .ok (s1, [.publishDone t [key] s.p2pPubBinds])

/-- The waiters fire_deletion returns: NoopWaiter in asynchronous mode;
SyncWaiter in synchronous mode (never successfully constructed, see
mkWaiter). -/
inductive Waiter where
  | noop (txid : Nat)
  | syncW (txid : Nat)
deriving DecidableEq, Repr

/-- Construction of `self.waiter(self, txid)`. NoopWaiter.__init__ does
nothing. SyncWaiter.__init__ evaluates `manager.listen_decode` and
`manager.ackprefix`; CoherenceManager defines neither attribute (the
delack channel is stored as `delackprefix` and listening goes through
`self.ipsub`), so in synchronous mode construction raises AttributeError. -/
def mkWaiter (s : CMgr) (txid : Nat) : Except PyError Waiter :=
  if s.synchronous then .error .attributeError
  else .ok (.noop txid)

/-- Waiter.wait: NoopWaiter.wait is `pass`; SyncWaiter.wait is
`raise NotImplementedError`. -/
def waiterWait : Waiter → Except PyError Unit
  | .noop _ => .ok ()
  | .syncW _ => .error .notImplementedError

/-- CoherenceManager.fire_deletion: draw a txid, construct the waiter
(before publishing, per the source comment), publish `(txid, key)` on the
del channel, return the waiter. An error while constructing the waiter
aborts before anything is published. -/
def fireDeletion (s : CMgr) (key : K) :
    Except PyError (Waiter × CMgr × List BusEvent) :=
  let (txid, s1) := nextTxid s
  match mkWaiter s1 txid with
  | .error e => .error e
  | .ok w => .ok (w, s1, [.publishDel txid key])

/-! Coherent deferred wrapper (lib/chorde/clients/coherent.py,
CoherentDefer.undefer). The manager's replies and the `expired()` polls
are oracles consumed one loop iteration at a time. -/

/-- Oracle inputs for one iteration of the undefer loop: the `expired()`
poll at loop entry, the manager's query_pending reply, the `expired()`
re-poll guarding the OOB_UPDATE branch, and the result of
manager.wait_done (true = done signalled, false = timeout). -/
structure DeferRound where
  expired1 : Bool
  reply : QPReply
  expired2 : Bool
  waitOk : Bool
deriving DecidableEq, Repr

/-- What undefer returns: the NONE sentinel, or the callable's value. -/
inductive DeferOutcome where
  | sentinelNONE
  | value (v : Nat)
deriving DecidableEq, Repr

/-- Result of undefer together with the final `computed` flag (the flag is
set exactly when the wrapped callable is invoked). -/
structure UndeferRv where
  outcome : DeferOutcome
  computed : Bool
deriving DecidableEq, Repr

/-- CoherentDefer.undefer. `waitTime` is the wait_time attribute
(`none` models Python None, meaning unbounded waits; the code only tests
`wait_time != 0`). `callRv` is the value the wrapped callable would
return. One DeferRound is consumed per loop iteration; `none` means the
oracle list ran out while the loop was still retrying.

manager.wait_done is absent from the sources under src/ and is modelled
from the spec as a boolean-returning wait (true = the done announcement
arrived, false = timed out). -/
def undefer (waitTime : Option Int) (callRv : Nat) :
    List DeferRound → Option UndeferRv
  | [] => none
  | r :: rs =>
    if r.expired1 = false then some ⟨.sentinelNONE, false⟩
    else
      match r.reply with
      | .noneReply => some ⟨.value callRv, true⟩
      | .oobUpdate =>
        -- elif computer is OOB_UPDATE and not self.expired()
        if r.expired2 = false then some ⟨.sentinelNONE, false⟩
        else if waitTime ≠ some 0 then
          if r.waitOk then some ⟨.sentinelNONE, false⟩
          else undefer waitTime callRv rs
        else some ⟨.sentinelNONE, false⟩
      | .contact _ =>
        -- falls through the OOB guard to the wait_time branches
        if waitTime ≠ some 0 then
          if r.waitOk then some ⟨.sentinelNONE, false⟩
          else undefer waitTime callRv rs
        else some ⟨.sentinelNONE, false⟩

/-! Integrity-checked codec (sPickle.py). Byte strings are lists of
naturals below 256; ascii characters of the hex encodings likewise. The
backing cPickle pickler/unpickler is external and enters only as the raw
payload bytes; the HMAC is a parameter `macHex` standing for
`hmac.HMAC(key, data, algo).hexdigest()` (a fixed-width ascii string). -/

/-- Byte strings / character strings. -/
abbrev Bytes := List Nat

/-- Lowercase hex digit of a nibble, as an ascii code. -/
def hexDigit (n : Nat) : Nat :=
  if n < 10 then 48 + n else 87 + n

/-- Hex encoding of one byte (two ascii chars, high nibble first). -/
def byteToHex (b : Nat) : Bytes :=
  [hexDigit (b / 16 % 16), hexDigit (b % 16)]

/-- Python str.encode("hex"). -/
def hexEncode : Bytes → Bytes
  | [] => []
  | b :: t => byteToHex b ++ hexEncode t

/-- Value of one ascii hex character. -/
def hexDigitVal (c : Nat) : Option Nat :=
  if 48 ≤ c ∧ c ≤ 57 then some (c - 48)
  else if 97 ≤ c ∧ c ≤ 102 then some (c - 87)
  else if 65 ≤ c ∧ c ≤ 70 then some (c - 55)
  else none

/-- Python str.decode("hex"): pairs of hex chars to bytes, failing on a
malformed string. -/
def hexDecode : Bytes → Option Bytes
  | [] => some []
  | [_] => none
  | c1 :: c2 :: t =>
    match hexDigitVal c1, hexDigitVal c2, hexDecode t with
    | some h, some l, some rest => some ((h * 16 + l) :: rest)
    | _, _, _ => none

/-- struct.pack with format <L: a u32 in little-endian byte order. -/
def packU32 (n : Nat) : Bytes :=
  [n % 256, n / 256 % 256, n / 65536 % 256, n / 16777216 % 256]

/-- struct.unpack with format <L: exactly four bytes, little-endian. -/
def unpackU32 : Bytes → Option Nat
  | [a, b, c, d] => some (a + 256 * b + 65536 * c + 16777216 * d)
  | _ => none

/-- SecurePickler.dump, given the already-pickled payload bytes: write the
hex-encoded u32 payload length, then the hex HMAC of the payload, then the
payload itself. -/
def dump (macHex : Bytes → Bytes) (payload : Bytes) : Bytes :=
  hexEncode (packU32 payload.length) ++ macHex payload ++ payload

/-- Errors SecureUnpickler.load can raise. -/
inductive LoadError where
  | eofError
  | badHeader
  | macMismatch
  | attributeError
deriving DecidableEq, Repr

/-- SecureUnpickler.load over the frame bytes. It reads the 8-char header
(EOFError when empty), hex-decodes and unpacks it to the payload length,
reads `2 * digestSize` chars of MAC and then the payload, and raises
ValueError on a MAC mismatch. After a matching MAC the source evaluates
`self.unpickler`; SecureUnpickler defines no such attribute (the lazily
built backing unpickler sits behind the misnamed property `pickler`, whose
body stores `self.local.unpickler`), so load raises AttributeError instead
of returning the unpickled value. -/
def load (macHex : Bytes → Bytes) (digestSize : Nat) (file : Bytes) :
    Except LoadError Bytes :=
  let datalenStr := file.take 8
  if datalenStr = [] then .error .eofError
  else
    match hexDecode datalenStr with
    | none => .error .badHeader
    | some lenBytes =>
      match unpackU32 lenBytes with
      | none => .error .badHeader
      | some datalen =>
        let rest := file.drop 8
        let md := rest.take (digestSize * 2)
        let data := (rest.drop (digestSize * 2)).take datalen
        if macHex data ≠ md then .error .macMismatch
        else .error .attributeError

/-- Modelled from the spec: the load the source intends (and its real
counterpart implements by exposing the backing unpickler correctly):
identical framing and MAC check, then return the payload to the backing
unpickler. Used to state what the claim expects at the failing input. -/
def loadIntended (macHex : Bytes → Bytes) (digestSize : Nat) (file : Bytes) :
    Except LoadError Bytes :=
  let datalenStr := file.take 8
  if datalenStr = [] then .error .eofError
  else
    match hexDecode datalenStr with
    | none => .error .badHeader
    | some lenBytes =>
      match unpackU32 lenBytes with
      | none => .error .badHeader
      | some datalen =>
        let rest := file.drop 8
        let md := rest.take (digestSize * 2)
        let data := (rest.drop (digestSize * 2)).take datalen
        if macHex data ≠ md then .error .macMismatch
        else .ok data

/-- A concrete stand-in HMAC for closed evaluations: digest size 2 bytes,
hex digest of (sum of bytes mod 256, length mod 256), keyed by an offset. -/
def toyMac (key : Nat) (bs : Bytes) : Bytes :=
  byteToHex ((bs.foldl (· + ·) 0 + key) % 256) ++ byteToHex (bs.length % 256)

/-! Helper lemmas about the dict model and the hex framing. -/

theorem hexEncode_length (bs : Bytes) : (hexEncode bs).length = 2 * bs.length := by
  induction bs with
  | nil => rfl
  | cons b t ih =>
    simp [hexEncode, byteToHex, ih]
    omega

theorem hexDigitVal_hexDigit (n : Nat) (h : n < 16) :
    hexDigitVal (hexDigit n) = some n := by
  unfold hexDigit hexDigitVal
  by_cases h10 : n < 10
  · rw [if_pos h10, if_pos ⟨by omega, by omega⟩]
    congr 1
    omega
  · rw [if_neg h10, if_neg (by omega), if_pos ⟨by omega, by omega⟩]
    congr 1
    omega

theorem hexDecode_byteToHex (b : Nat) (hb : b < 256) (t rest : Bytes)
    (ht : hexDecode t = some rest) :
    hexDecode (byteToHex b ++ t) = some (b :: rest) := by
  have h1 : b / 16 % 16 < 16 := Nat.mod_lt _ (by omega)
  have h2 : b % 16 < 16 := Nat.mod_lt _ (by omega)
  have harith : b / 16 % 16 * 16 + b % 16 = b := by omega
  simp [byteToHex, hexDecode, hexDigitVal_hexDigit _ h1, hexDigitVal_hexDigit _ h2,
    ht, harith]

theorem hexDecode_hexEncode (bs : Bytes) (h : ∀ b ∈ bs, b < 256) :
    hexDecode (hexEncode bs) = some bs := by
  induction bs with
  | nil => rfl
  | cons b t ih =>
    have hb : b < 256 := h b (by simp)
    have ht := ih (fun x hx => h x (by simp [hx]))
    rw [show hexEncode (b :: t) = byteToHex b ++ hexEncode t from rfl]
    exact hexDecode_byteToHex b hb _ t ht

theorem unpackU32_packU32 (n : Nat) (h : n < 4294967296) :
    unpackU32 (packU32 n) = some n := by
  simp only [packU32, unpackU32]
  congr 1
  omega

/-- The framing is invertible: the load the source intends recovers the
exact payload dump wrote, for any MAC of the stated digest width and any
payload shorter than 2^32 bytes. -/
theorem loadIntended_dump (macHex : Bytes → Bytes) (ds : Nat) (payload : Bytes)
    (hmacl : ∀ x, (macHex x).length = ds * 2)
    (hlen : payload.length < 4294967296) :
    loadIntended macHex ds (dump macHex payload) = .ok payload := by
  have hA : (hexEncode (packU32 payload.length)).length = 8 := by
    rw [hexEncode_length]
    rfl
  have h8 : ((hexEncode (packU32 payload.length)) ++ (macHex payload ++ payload)).take 8
      = hexEncode (packU32 payload.length) := by
    rw [← hA, List.take_left]
  have hdrop : ((hexEncode (packU32 payload.length)) ++ (macHex payload ++ payload)).drop 8
      = macHex payload ++ payload := by
    rw [← hA, List.drop_left]
  have hMlen := hmacl payload
  have htakeM : (macHex payload ++ payload).take (ds * 2) = macHex payload := by
    rw [← hMlen, List.take_left]
  have hdropM : (macHex payload ++ payload).drop (ds * 2) = payload := by
    rw [← hMlen, List.drop_left]
  have hAne : hexEncode (packU32 payload.length) ≠ [] := by
    intro h0
    rw [h0] at hA
    simp at hA
  have hdec : hexDecode (hexEncode (packU32 payload.length))
      = some (packU32 payload.length) := by
    refine hexDecode_hexEncode _ ?_
    intro b hb
    simp [packU32] at hb
    rcases hb with h | h | h | h <;> omega
  have hunpack := unpackU32_packU32 payload.length hlen
  simp [loadIntended, dump, List.append_assoc, h8, hdrop, htakeM, hdropM, hAne,
    hdec, hunpack, List.take_length]

/-! Helper lemmas about the dict model. -/

theorem assocFind_erase_self {α β : Type} [DecidableEq α] (l : List (α × β)) (k : α) :
    assocFind (assocErase l k) k = none := by
  induction l with
  | nil => rfl
  | cons e t ih =>
    by_cases h : e.1 = k
    · simp [assocErase, h, ih]
    · simp [assocErase, assocFind, h, ih]

theorem assocFind_erase_ne {α β : Type} [DecidableEq α] (l : List (α × β)) (k k1 : α)
    (h : k1 ≠ k) : assocFind (assocErase l k) k1 = assocFind l k1 := by
  induction l with
  | nil => rfl
  | cons e t ih =>
    by_cases he : e.1 = k
    · have hne : e.1 ≠ k1 := by rw [he]; exact fun hk => h hk.symm
      have hkk : k ≠ k1 := fun hk => h hk.symm
      simp [assocErase, assocFind, he, hne, hkk, ih]
    · simp [assocErase, assocFind, he, ih]

theorem assocFind_set_self {α β : Type} [DecidableEq α] (l : List (α × β)) (k : α) (v : β) :
    assocFind (assocSet l k v) k = some v := by
  simp [assocSet, assocFind]

theorem assocFind_set_ne {α β : Type} [DecidableEq α] (l : List (α × β)) (k k1 : α) (v : β)
    (h : k1 ≠ k) : assocFind (assocSet l k v) k1 = assocFind l k1 := by
  have : k ≠ k1 := fun hk => h hk.symm
  simp [assocSet, assocFind, this, assocFind_erase_ne l k k1 h]

/-! Claim theorems. -/

/-- C3: add(key, value, ttl) returns false and leaves the stored entry
unchanged iff an entry currently exists for the key and is not stale;
otherwise it installs (value, now+ttl) and returns true. In particular,
after put(k, v1, 0) and a delay of one second, add(k, v2, 60) returns true
and get(k) returns v2. -/
theorem add_absent_or_stale (s : StoreOf K) (k : K) (v : V) (ttl now : Int) :
    (add s k v ttl now = (s, false) ↔
      ∃ v0 e0, assocFind s k = some (v0, e0) ∧ ¬ e0 < now)
    ∧ ((assocFind s k = none ∨
          ∃ v0 e0, assocFind s k = some (v0, e0) ∧ e0 < now) →
        add s k v ttl now = (assocSet s k (v, now + ttl), true))
    ∧ (∀ (k1 : K) (v1 v2 : V) (t : Int),
        (add (put ([] : StoreOf K) k1 v1 0 t) k1 v2 60 (t + 1)).2 = true ∧
        get (add (put ([] : StoreOf K) k1 v1 0 t) k1 v2 60 (t + 1)).1 k1 none (t + 1)
          = .ok v2) := by
  refine ⟨⟨?_, ?_⟩, ?_, ?_⟩
  · intro h
    cases hf : assocFind s k with
    | none => simp [add, hf] at h
    | some cur =>
      obtain ⟨cv, ce⟩ := cur
      by_cases hs : ce < now
      · simp [add, hf, hs] at h
      · exact ⟨cv, ce, rfl, hs⟩
  · rintro ⟨v0, e0, hf, hs⟩
    simp [add, hf, hs]
  · rintro (hf | ⟨v0, e0, hf, hs⟩)
    · simp [add, hf]
    · simp [add, hf, hs]
  · intro k1 v1 v2 t
    have hput : assocFind (put ([] : StoreOf K) k1 v1 0 t) k1 = some (v1, t + 0) :=
      assocFind_set_self [] k1 (v1, t + 0)
    have hstale : t + 0 < t + 1 := by omega
    have hadd :
        add (put ([] : StoreOf K) k1 v1 0 t) k1 v2 60 (t + 1)
          = (assocSet (put ([] : StoreOf K) k1 v1 0 t) k1 (v2, t + 1 + 60), true) := by
      simp [add, hput, hstale]
    refine ⟨by simp [hadd], ?_⟩
    have hfind := assocFind_set_self (put ([] : StoreOf K) k1 v1 0 t) k1 (v2, t + 1 + 60)
    have httl : t + 1 + 60 - (t + 1) = (60 : Int) := by omega
    simp [hadd, get, getTtl, hfind, httl]

/-- C3 witness: concrete instances of every hypothesis-bearing conjunct of
the add contract. -/
theorem add_absent_or_stale_witness :
    (add ([(0, (5, (3 : Int)))] : StoreOf K) 0 7 60 2
        = ([(0, (5, (3 : Int)))], false))
    ∧ (add ([(0, (5, (3 : Int)))] : StoreOf K) 0 7 60 10
        = (assocSet ([(0, (5, (3 : Int)))] : StoreOf K) 0 (7, 10 + 60), true))
    ∧ ((add (put ([] : StoreOf K) 0 1 0 100) 0 2 60 (100 + 1)).2 = true ∧
        get (add (put ([] : StoreOf K) 0 1 0 100) 0 2 60 (100 + 1)).1 0 none (100 + 1)
          = .ok 2) :=
  ⟨(add_absent_or_stale [(0, (5, 3))] 0 7 60 2).1.mpr ⟨5, 3, by decide, by decide⟩,
   (add_absent_or_stale [(0, (5, 3))] 0 7 60 10).2.1 (Or.inr ⟨5, 3, by decide, by decide⟩),
   (add_absent_or_stale [(0, (5, 3))] 0 7 60 10).2.2 0 1 2 100⟩

/-- C4: getTtl returns (v, expiry - now) for any present entry (the second
component may be negative); an absent key raises the cache miss when no
default was given and yields (default, -1) when one was. -/
theorem getTtl_contract (s : StoreOf K) (k : K) (now : Int) :
    (∀ v expiry, assocFind s k = some (v, expiry) →
      ∀ default, getTtl s k default now = .ok (v, expiry - now))
    ∧ (assocFind s k = none → getTtl s k none now = .error .cacheMiss)
    ∧ (∀ d, assocFind s k = none → getTtl s k (some d) now = .ok (d, -1)) := by
  refine ⟨?_, ?_, ?_⟩
  · intro v expiry hf default
    simp [getTtl, hf]
  · intro hf
    simp [getTtl, hf]
  · intro d hf
    simp [getTtl, hf]

/-- C4 witness: the three getTtl cases at concrete inputs (entry stale by
five seconds, key 1 absent). -/
theorem getTtl_contract_witness :
    getTtl ([(0, (1, (5 : Int)))] : StoreOf K) 0 (some 9) 10 = .ok (1, 5 - 10)
    ∧ getTtl ([(0, (1, (5 : Int)))] : StoreOf K) 1 none 10 = .error .cacheMiss
    ∧ getTtl ([(0, (1, (5 : Int)))] : StoreOf K) 1 (some 9) 10 = .ok (9, -1) :=
  ⟨(getTtl_contract [(0, (1, 5))] 0 10).1 1 5 (by decide) (some 9),
   (getTtl_contract [(0, (1, 5))] 1 10).2.1 (by decide),
   (getTtl_contract [(0, (1, 5))] 1 10).2.2 9 (by decide)⟩

/-- C5 counterexample: with a present stale entry (value 1, expiry 5, now
10) and a supplied default 2, get returns the stale stored value 1, not
the default, refuting the claim that get(key, d) returns d whenever the
entry is stale. -/
theorem get_stale_default_counterexample :
    get ([(0, (1, (5 : Int)))] : StoreOf K) 0 (some 2) 10 = .ok 1
    ∧ ¬ get ([(0, (1, (5 : Int)))] : StoreOf K) 0 (some 2) 10 = .ok 2 := by
  decide

/-- C5 as amended: get with no default raises the miss exactly when the
entry is stale or absent; with a default d it returns d when the key is
absent, but returns the stale stored value when a stale entry is present. -/
theorem get_stale_amended (s : StoreOf K) (k : K) (now : Int) (d : V) :
    (get s k none now = .error .cacheMiss ↔
      (assocFind s k = none ∨ ∃ v e, assocFind s k = some (v, e) ∧ e < now))
    ∧ (assocFind s k = none → get s k (some d) now = .ok d)
    ∧ (∀ v e, assocFind s k = some (v, e) → e < now → get s k (some d) now = .ok v) := by
  refine ⟨⟨?_, ?_⟩, ?_, ?_⟩
  · intro h
    cases hf : assocFind s k with
    | none => exact Or.inl rfl
    | some ve =>
      obtain ⟨vv, ee⟩ := ve
      refine Or.inr ⟨vv, ee, rfl, ?_⟩
      by_contra hs
      have hge : ¬ ee - now < 0 := by omega
      simp [get, getTtl, hf, hge] at h
  · rintro (hf | ⟨v, e, hf, hs⟩)
    · simp [get, getTtl, hf]
    · have : e - now < 0 := by omega
      simp [get, getTtl, hf, this]
  · intro hf
    simp [get, getTtl, hf]
  · intro v e hf hs
    have : e - now < 0 := by omega
    simp [get, getTtl, hf, this]

/-- C5 witness for the amended claim: concrete instances of each
hypothesis-bearing conjunct. -/
theorem get_stale_amended_witness :
    get ([(0, (1, (5 : Int)))] : StoreOf K) 0 none 10 = .error .cacheMiss
    ∧ get ([(0, (1, (5 : Int)))] : StoreOf K) 1 (some 2) 10 = .ok 2
    ∧ get ([(0, (1, (5 : Int)))] : StoreOf K) 0 (some 2) 10 = .ok 1 :=
  ⟨(get_stale_amended [(0, (1, 5))] 0 10 2).1.mpr (Or.inr ⟨1, 5, by decide, by decide⟩),
   (get_stale_amended [(0, (1, 5))] 1 10 2).2.1 (by decide),
   (get_stale_amended [(0, (1, 5))] 0 10 2).2.2 1 5 (by decide) (by decide)⟩

/-- C6: NamespaceWrapper.clear increments the revision, then writes it
under (namespace, REVMARK) with ttl 3600 through the underlying client,
then calls the underlying clear (in that order); afterwards a key put
through the wrapper before the clear misses on the wrapper (its decoration
moved from revision 0 to 1) while the pre-clear entry is still retrievable
from the shared store under the old (namespace, 0, key) internal key. -/
theorem namespace_clear_revision_bump (ns : Nat) (k k1 : K) (v1 : V) (t : Int) :
    (mkNSWrapper ns ([] : NSStore) t).revision = 0
    ∧ (wrapClear (mkNSWrapper ns ([] : NSStore) t)
        (wrapPut (mkNSWrapper ns ([] : NSStore) t) [] k v1 60 t) t).1.revision = 1
    ∧ (wrapClear (mkNSWrapper ns ([] : NSStore) t)
        (wrapPut (mkNSWrapper ns ([] : NSStore) t) [] k v1 60 t) t).2.2
      = [NSEvent.revInc 1, NSEvent.clientPut (NSKey.revmark ns) 1 3600,
         NSEvent.clientClear]
    ∧ wrapGet
        (wrapClear (mkNSWrapper ns ([] : NSStore) t)
          (wrapPut (mkNSWrapper ns ([] : NSStore) t) [] k v1 60 t) t).1
        (wrapClear (mkNSWrapper ns ([] : NSStore) t)
          (wrapPut (mkNSWrapper ns ([] : NSStore) t) [] k v1 60 t) t).2.1
        k1 none t
      = .error .cacheMiss
    ∧ getTtl
        (wrapClear (mkNSWrapper ns ([] : NSStore) t)
          (wrapPut (mkNSWrapper ns ([] : NSStore) t) [] k v1 60 t) t).2.1
        (NSKey.data ns 0 k) none t
      = .ok (v1, 60) := by
  have hw0 : mkNSWrapper ns ([] : NSStore) t = ⟨ns, 0⟩ := by
    simp [mkNSWrapper, get, getTtl, assocFind]
  rw [hw0]
  have hs1 : wrapPut (⟨ns, 0⟩ : NSWrapper) [] k v1 60 t
      = [(NSKey.data ns 0 k, (v1, t + 60))] := by
    simp [wrapPut, put, keyDecorator, assocSet, assocErase]
  rw [hs1]
  have hclear : wrapClear (⟨ns, 0⟩ : NSWrapper) [(NSKey.data ns 0 k, (v1, t + 60))] t
      = (⟨ns, 1⟩,
         [(NSKey.revmark ns, ((1 : V), t + 3600)),
          (NSKey.data ns 0 k, (v1, t + 60))],
         [NSEvent.revInc 1, NSEvent.clientPut (NSKey.revmark ns) 1 3600,
          NSEvent.clientClear]) := by
    simp [wrapClear, put, sharedClear, assocSet, assocErase]
  rw [hclear]
  refine ⟨rfl, rfl, rfl, ?_, ?_⟩
  · simp [wrapGet, get, getTtl, keyDecorator, assocFind]
  · have httl : t + 60 - t = (60 : Int) := by omega
    simp [getTtl, assocFind, httl]

/-- C7: the mirror wrapper's revision and namespace reads return the
reference wrapper's current values and assigning revision is silently
dropped; but assigning the namespace attribute raises TypeError (its
setter is declared without a value parameter), it is not silently
ignored as claimed. -/
theorem mirror_accessors :
    (∀ m : MirrorWrapper,
      mirrorRevision m = m.reference.revision
      ∧ mirrorNamespace m = m.reference.nspace
      ∧ ∀ v, setMirrorRevision m v = .ok m)
    ∧ setMirrorNamespace ⟨⟨3, 7⟩⟩ 99 = .error .typeError :=
  ⟨fun _ => ⟨rfl, rfl, fun _ => rfl⟩, rfl⟩

/-- C7 counterexample evidence: on the concrete mirror of reference
(namespace 3, revision 7), assigning to the namespace attribute raises
TypeError, refuting the claim that any assignment is silently ignored. -/
theorem mirror_namespace_set_raises :
    setMirrorNamespace ⟨⟨3, 7⟩⟩ 99 = .error .typeError
    ∧ ¬ setMirrorNamespace ⟨⟨3, 7⟩⟩ 99 = .ok ⟨⟨3, 7⟩⟩ := by
  decide

/-- C1: query_pending on the broker consults the local tables: a
group_pending hit returns that entry's contact; otherwise a pending entry
holding a txid returns the node's own contact list (per the source's
`if rv is not None`, a pending entry holding None instead falls through
to the expired branch, exactly like an absent key); otherwise with
expired true it returns None, first (under optimistic_lock) recording a
fresh txid in both group_pending[key] and pending[key]; and with expired
false it returns OOB_UPDATE. -/
theorem query_pending_broker (s : CMgr) (key : K) (expired lock : Bool)
    (lp : QPReply × CMgr) :
    (∀ t c, assocFind s.groupPending key = some (t, c) →
      queryPending true lp s key expired lock = (.contact c, s))
    ∧ (∀ x, assocFind s.groupPending key = none →
        assocFind s.pending key = some (some x) →
        queryPending true lp s key expired lock = (.contact s.p2pPubBinds, s))
    ∧ (assocFind s.groupPending key = none →
        assocFind s.pending key = some none →
        queryPending true lp s key false lock = (.oobUpdate, s)
        ∧ queryPending true lp s key true false = (.noneReply, s))
    ∧ (assocFind s.groupPending key = none →
        assocFind s.pending key = none →
        (queryPending true lp s key true true).1 = .noneReply
        ∧ assocFind (queryPending true lp s key true true).2.groupPending key
            = some (s.txidCounter % 0x7FFFFFFF, s.p2pPubBinds)
        ∧ assocFind (queryPending true lp s key true true).2.pending key
            = some (some (s.txidCounter % 0x7FFFFFFF)))
    ∧ (assocFind s.groupPending key = none →
        assocFind s.pending key = none →
        queryPending true lp s key true false = (.noneReply, s))
    ∧ (assocFind s.groupPending key = none →
        assocFind s.pending key = none →
        queryPending true lp s key false lock = (.oobUpdate, s)) := by
  refine ⟨?_, ?_, ?_, ?_, ?_, ?_⟩
  · intro t c hf
    simp [queryPending, queryPendingLocally, hf]
  · intro x h1 h2
    simp [queryPending, queryPendingLocally, h1, h2]
  · intro h1 h2
    refine ⟨?_, ?_⟩ <;> simp [queryPending, queryPendingLocally, h1, h2]
  · intro h1 h2
    refine ⟨?_, ?_, ?_⟩ <;>
      simp [queryPending, queryPendingLocally, h1, h2, nextTxid, assocFind_set_self]
  · intro h1 h2
    simp [queryPending, queryPendingLocally, h1, h2]
  · intro h1 h2
    simp [queryPending, queryPendingLocally, h1, h2]

/-- C1 witness: the broker branches at concrete manager states, including
a pending entry holding None falling through to the expired branch. -/
theorem query_pending_broker_witness :
    queryPending true (.noneReply, ⟨false, 0, [], [], [9]⟩)
        ⟨false, 0, [], [(7, (1, [1, 2]))], [9]⟩ 7 true false
      = (.contact [1, 2], ⟨false, 0, [], [(7, (1, [1, 2]))], [9]⟩)
    ∧ queryPending true (.noneReply, ⟨false, 0, [], [], [9]⟩)
        ⟨false, 0, [(7, some 3)], [], [9]⟩ 7 true false
      = (.contact [9], ⟨false, 0, [(7, some 3)], [], [9]⟩)
    ∧ (queryPending true (.noneReply, ⟨false, 0, [], [], [9]⟩)
          ⟨false, 42, [(7, none)], [], [9]⟩ 7 false true
        = (.oobUpdate, ⟨false, 42, [(7, none)], [], [9]⟩)
       ∧ queryPending true (.noneReply, ⟨false, 0, [], [], [9]⟩)
          ⟨false, 42, [(7, none)], [], [9]⟩ 7 true false
        = (.noneReply, ⟨false, 42, [(7, none)], [], [9]⟩))
    ∧ ((queryPending true (.noneReply, ⟨false, 0, [], [], [9]⟩)
          ⟨false, 42, [], [], [9]⟩ 7 true true).1 = .noneReply
       ∧ assocFind (queryPending true (.noneReply, ⟨false, 0, [], [], [9]⟩)
            ⟨false, 42, [], [], [9]⟩ 7 true true).2.groupPending 7
          = some (42 % 0x7FFFFFFF, [9])
       ∧ assocFind (queryPending true (.noneReply, ⟨false, 0, [], [], [9]⟩)
            ⟨false, 42, [], [], [9]⟩ 7 true true).2.pending 7
          = some (some (42 % 0x7FFFFFFF)))
    ∧ queryPending true (.noneReply, ⟨false, 0, [], [], [9]⟩)
        ⟨false, 42, [], [], [9]⟩ 7 true false
      = (.noneReply, ⟨false, 42, [], [], [9]⟩)
    ∧ queryPending true (.noneReply, ⟨false, 0, [], [], [9]⟩)
        ⟨false, 42, [], [], [9]⟩ 7 false true
      = (.oobUpdate, ⟨false, 42, [], [], [9]⟩) :=
  ⟨(query_pending_broker ⟨false, 0, [], [(7, (1, [1, 2]))], [9]⟩ 7 true false
      (.noneReply, ⟨false, 0, [], [], [9]⟩)).1 1 [1, 2] (by decide),
   (query_pending_broker ⟨false, 0, [(7, some 3)], [], [9]⟩ 7 true false
      (.noneReply, ⟨false, 0, [], [], [9]⟩)).2.1 3 (by decide) (by decide),
   (query_pending_broker ⟨false, 42, [(7, none)], [], [9]⟩ 7 true true
      (.noneReply, ⟨false, 0, [], [], [9]⟩)).2.2.1 (by decide) (by decide),
   (query_pending_broker ⟨false, 42, [], [], [9]⟩ 7 true true
      (.noneReply, ⟨false, 0, [], [], [9]⟩)).2.2.2.1 (by decide) (by decide),
   (query_pending_broker ⟨false, 42, [], [], [9]⟩ 7 true false
      (.noneReply, ⟨false, 0, [], [], [9]⟩)).2.2.2.2.1 (by decide) (by decide),
   (query_pending_broker ⟨false, 42, [], [], [9]⟩ 7 false true
      (.noneReply, ⟨false, 0, [], [], [9]⟩)).2.2.2.2.2 (by decide) (by decide)⟩

/-- C10: mark_done on a key with no local pending entry raises KeyError
(the pop has no default and only bus connection errors are swallowed) and
publishes nothing; a done message is published only for a key that was
previously locked locally (present in pending). -/
theorem mark_done_requires_pending (s : CMgr) (key : K) :
    (assocFind s.pending key = none → markDone s key = .error .keyError)
    ∧ (∀ t, assocFind s.pending key = some (some t) →
        markDone s key
          = .ok ({ s with pending := assocErase s.pending key },
                 [.publishDone t [key] s.p2pPubBinds]))
    ∧ (∀ s1 evs, markDone s key = .ok (s1, evs) → evs ≠ [] →
        assocFind s.pending key ≠ none) := by
  refine ⟨?_, ?_, ?_⟩
  · intro hf
    simp [markDone, hf]
  · intro t hf
    simp [markDone, hf]
  · intro s1 evs hok hne hf
    simp [markDone, hf] at hok

/-- C10 witness: a manager with empty pending raises KeyError; one with
pending[7] = 3 pops it and publishes (3, [7], contact). -/
theorem mark_done_requires_pending_witness :
    markDone ⟨false, 0, [], [], [9]⟩ 7 = .error .keyError
    ∧ markDone ⟨false, 0, [(7, some 3)], [], [9]⟩ 7
      = .ok ({ (⟨false, 0, [(7, some 3)], [], [9]⟩ : CMgr) with
                pending := assocErase [(7, some 3)] 7 },
             [.publishDone 3 [7] [9]])
    ∧ assocFind (CMgr.pending ⟨false, 0, [(7, some 3)], [], [9]⟩) 7 ≠ none :=
  ⟨(mark_done_requires_pending ⟨false, 0, [], [], [9]⟩ 7).1 (by decide),
   (mark_done_requires_pending ⟨false, 0, [(7, some 3)], [], [9]⟩ 7).2.1 3 (by decide),
   (mark_done_requires_pending ⟨false, 0, [(7, some 3)], [], [9]⟩ 7).2.2
     { (⟨false, 0, [(7, some 3)], [], [9]⟩ : CMgr) with
        pending := assocErase [(7, some 3)] 7 }
     [.publishDone 3 [7] [9]] (by decide) (by decide)⟩

/-- C8: fire_deletion draws a txid, constructs the acknowledgement waiter
before publishing, publishes (txid, key) on the del channel and returns
the waiter; in asynchronous mode the waiter's wait is a no-op. In
synchronous mode, however, SyncWaiter construction raises AttributeError
(CoherenceManager has no listen_decode / ackprefix attributes), aborting
before anything is published, and SyncWaiter.wait itself raises
NotImplementedError instead of counting peer acknowledgements. -/
theorem fire_deletion_eval :
    fireDeletion ⟨false, 5, [], [], [4]⟩ 3
      = .ok (.noop (5 % 0x7FFFFFFF), ⟨false, 6, [], [], [4]⟩,
             [.publishDel (5 % 0x7FFFFFFF) 3])
    ∧ waiterWait (.noop (5 % 0x7FFFFFFF)) = .ok ()
    ∧ fireDeletion ⟨true, 5, [], [], [4]⟩ 3 = .error .attributeError
    ∧ waiterWait (.syncW 5) = .error .notImplementedError := by
  decide

/-- C2: one iteration of CoherentDefer.undefer. With expired() false at
entry it returns NONE without invoking the callable; on a None reply it
sets computed and returns the callable's value; on an OOB_UPDATE reply
with expired() now false it returns NONE; otherwise, with wait_time not
equal to 0 it blocks on wait_done, returning NONE on success and retrying
the loop on timeout, and with wait_time equal to 0 it returns NONE. -/
theorem undefer_iteration (wt : Option Int) (c : Nat) (rs : List DeferRound)
    (rep : QPReply) (e2 w : Bool) (cc : Contact) :
    undefer wt c (⟨false, rep, e2, w⟩ :: rs) = some ⟨.sentinelNONE, false⟩
    ∧ undefer wt c (⟨true, .noneReply, e2, w⟩ :: rs) = some ⟨.value c, true⟩
    ∧ undefer wt c (⟨true, .oobUpdate, false, w⟩ :: rs) = some ⟨.sentinelNONE, false⟩
    ∧ (wt ≠ some 0 →
        undefer wt c (⟨true, .contact cc, e2, true⟩ :: rs) = some ⟨.sentinelNONE, false⟩
        ∧ undefer wt c (⟨true, .contact cc, e2, false⟩ :: rs) = undefer wt c rs
        ∧ undefer wt c (⟨true, .oobUpdate, true, true⟩ :: rs) = some ⟨.sentinelNONE, false⟩
        ∧ undefer wt c (⟨true, .oobUpdate, true, false⟩ :: rs) = undefer wt c rs)
    ∧ (undefer (some 0) c (⟨true, .contact cc, e2, w⟩ :: rs) = some ⟨.sentinelNONE, false⟩
        ∧ undefer (some 0) c (⟨true, .oobUpdate, true, w⟩ :: rs)
            = some ⟨.sentinelNONE, false⟩) := by
  refine ⟨?_, ?_, ?_, fun h => ⟨?_, ?_, ?_, ?_⟩, ?_, ?_⟩ <;>
    simp_all [undefer]

/-- C2 witness: the wait branches at wait_time None (unbounded, in
particular not 0). -/
theorem undefer_iteration_witness :
    undefer none 5 [⟨true, .contact [3], true, true⟩] = some ⟨.sentinelNONE, false⟩
    ∧ undefer none 5 [⟨true, .contact [3], true, false⟩] = undefer none 5 []
    ∧ undefer none 5 [⟨true, .oobUpdate, true, true⟩] = some ⟨.sentinelNONE, false⟩
    ∧ undefer none 5 [⟨true, .oobUpdate, true, false⟩] = undefer none 5 []
    ∧ undefer none 5 [⟨false, .noneReply, true, true⟩] = some ⟨.sentinelNONE, false⟩ :=
  ⟨((undefer_iteration none 5 [] .noneReply true true [3]).2.2.2.1 (by decide)).1,
   ((undefer_iteration none 5 [] .noneReply true true [3]).2.2.2.1 (by decide)).2.1,
   ((undefer_iteration none 5 [] .noneReply true true [3]).2.2.2.1 (by decide)).2.2.1,
   ((undefer_iteration none 5 [] .noneReply true true [3]).2.2.2.1 (by decide)).2.2.2,
   (undefer_iteration none 5 [] .noneReply true true [3]).1⟩

/-- C9: evaluation of the sPickle frame codec on a concrete payload and
MAC. The frame written by dump parses back (loadIntended recovers the
payload, so the framing and MAC check are as claimed), and corrupting the
payload makes load raise the MAC-mismatch integrity error; but the actual
load raises AttributeError after a successful MAC check (it evaluates the
nonexistent attribute self.unpickler), so load(dump(v)) never returns v. -/
theorem spickle_frame_eval :
    load (toyMac 1) 2 (dump (toyMac 1) [10, 20, 30]) = .error .attributeError
    ∧ loadIntended (toyMac 1) 2 (dump (toyMac 1) [10, 20, 30]) = .ok [10, 20, 30]
    ∧ load (toyMac 1) 2 ((dump (toyMac 1) [10, 20, 30]).dropLast ++ [31])
        = .error .macMismatch
    ∧ loadIntended (toyMac 1) 2 ((dump (toyMac 1) [10, 20, 30]).dropLast ++ [31])
        = .error .macMismatch := by
  decide

end Chorde
